import Mathlib

/-!
Shallow embedding of the `@prybet/router` Deno router (`src/router.ts`):
the `Router` class (route table, `addRoute`, `static`, `cors`, `handler`),
the `ResponseBuilder` class (`status`, `setHeader`, `send` with the
`empties` status set and the `isBinary` passthrough), and the dispatch
semantics of `route` from `@std/http/unstable-route` together with
`URLPattern` pathname matching and `URLSearchParams` query parsing.
-/

/-! ## Character-level string helpers (ASCII lowering, single-character
splitting), structurally recursive so that concrete runs reduce in the
kernel. -/

def lowerChar (c : Char) : Char :=
  if 'A' ≤ c ∧ c ≤ 'Z' then Char.ofNat (c.toNat + 32) else c

def lowerStr (s : String) : String :=
  String.mk (s.data.map lowerChar)

def splitOnChar (sep : Char) : List Char → List (List Char)
  | [] => [[]]
  | c :: rest =>
      let r := splitOnChar sep rest
      if c = sep then [] :: r
      else
        match r with
        | [] => [[c]]
        | g :: gs => (c :: g) :: gs

/-- JS `String.prototype.split` with a one-character separator. -/
def splitStr (sep : Char) (s : String) : List String :=
  (splitOnChar sep s.data).map String.mk

/-! ## JS `Headers`: a case-insensitive map; `set` lowercases the name and
overwrites in place, otherwise appends. -/

def headersSet (hs : List (String × String)) (k v : String) : List (String × String) :=
  match hs with
  | [] => [(lowerStr k, v)]
  | (k', v') :: rest =>
      if k' = lowerStr k then (k', v) :: rest else (k', v') :: headersSet rest k v

def headersOfList (l : List (String × String)) : List (String × String) :=
  l.foldl (fun hs p => headersSet hs p.1 p.2) []

def headersGet (hs : List (String × String)) (k : String) : Option String :=
  (hs.find? (fun p => p.1 = lowerStr k)).map Prod.snd

/-! ## Response bodies: `null`/`undefined`, a string, or raw bytes. -/

inductive Body where
  | none
  | str (s : String)
  | bytes (bs : List Nat)
deriving DecidableEq, Repr

structure Response where
  status : Nat
  headers : List (String × String)
  body : Body
deriving DecidableEq, Repr

/-- The JS `Response` constructor: a string body with no content type in the
supplied headers gets the implicit `text/plain;charset=UTF-8` content type. -/
def mkResponse (body : Body) (status : Nat) (hs : List (String × String)) : Response :=
  let hs' :=
    match body with
    | Body.str _ =>
        if (headersGet hs "Content-Type").isSome then hs
        else headersSet hs "Content-Type" "text/plain;charset=UTF-8"
    | _ => hs
  ⟨status, hs', body⟩

/-! ## `Router.HEADERS`: the default CORS/JSON header set. -/

def Router.HEADERS : List (String × String) :=
  [ ("Content-Type", "application/json"),
    ("Access-Control-Allow-Origin", "*"),
    ("Access-Control-Allow-Methods", "GET, POST, PUT, DELETE, OPTIONS"),
    ("Access-Control-Allow-Headers", "Content-Type, Authorization") ]

/-! ## JS values reaching `send`: primitives, structured values, binary payloads. -/

inductive JSData where
  | null
  | str (s : String)
  | num (n : Int)
  | bool (b : Bool)
  | obj (fields : List (String × JSData))
  | arr (items : List JSData)
  | binary (bs : List Nat)

/-- `isBinary` from the source: `ArrayBuffer`, typed arrays, `Blob`,
`ReadableStream` — all byte payloads, modelled as one `binary` constructor. -/
def isBinary : JSData → Bool
  | JSData.binary _ => true
  | _ => false

/-- JS `typeof data === "object"`; note `typeof null` is `"object"`. -/
def typeofIsObject : JSData → Bool
  | JSData.null => true
  | JSData.obj _ => true
  | JSData.arr _ => true
  | JSData.binary _ => true
  | _ => false

def jsonEscape (s : String) : String :=
  s.foldl (fun acc c =>
    if c = '"' then acc ++ "\\\""
    else if c = '\\' then acc ++ "\\\\"
    else acc.push c) ""

mutual

/-- JS `JSON.stringify` over the modelled value universe. -/
def jsonStringify : JSData → String
  | JSData.null => "null"
  | JSData.str s => "\"" ++ jsonEscape s ++ "\""
  | JSData.num n => toString n
  | JSData.bool b => if b then "true" else "false"
  | JSData.obj fields => "\x7b" ++ jsonFields fields ++ "\x7d"
  | JSData.arr items => "[" ++ jsonItems items ++ "]"
  | JSData.binary _ => "\x7b\x7d"

def jsonFields : List (String × JSData) → String
  | [] => ""
  | [(k, v)] => "\"" ++ jsonEscape k ++ "\":" ++ jsonStringify v
  | (k, v) :: rest => "\"" ++ jsonEscape k ++ "\":" ++ jsonStringify v ++ "," ++ jsonFields rest

def jsonItems : List JSData → String
  | [] => ""
  | [v] => jsonStringify v
  | v :: rest => jsonStringify v ++ "," ++ jsonItems rest

end

/-- JS `String(data)` for the non-object branch of `send`. -/
def jsToString : JSData → String
  | JSData.null => "null"
  | JSData.str s => s
  | JSData.num n => toString n
  | JSData.bool b => if b then "true" else "false"
  | JSData.obj _ => "[object Object]"
  | JSData.arr _ => ""
  | JSData.binary _ => ""

/-! ## `ResponseBuilder` -/

/-- `const empties = new Set([204, 304])`. -/
def empties : List Nat := [204, 304]

structure ResponseBuilder where
  headers : List (String × String)
  code : Nat
deriving DecidableEq, Repr

/-- `new ResponseBuilder()`: default headers, status 200. -/
def ResponseBuilder.new : ResponseBuilder :=
  ⟨headersOfList Router.HEADERS, 200⟩

def ResponseBuilder.status (b : ResponseBuilder) (c : Nat) : ResponseBuilder :=
  { b with code := c }

def ResponseBuilder.setHeader (b : ResponseBuilder) (k v : String) : ResponseBuilder :=
  { b with headers := headersSet b.headers k v }

/-- `ResponseBuilder.send`: empty-body statuses drop the body; binary data is
passed through unmodified; other objects are JSON-stringified; primitives are
string-coerced. -/
def ResponseBuilder.send (b : ResponseBuilder) (data : JSData) : Response :=
  if b.code ∈ empties then
    mkResponse Body.none b.code b.headers
  else
    let body :=
      if isBinary data then
        match data with
        | JSData.binary bs => Body.bytes bs
        | _ => Body.none
      else if typeofIsObject data then Body.str (jsonStringify data)
      else Body.str (jsToString data)
    mkResponse body b.code b.headers

/-! ## URLPattern pathname matching

A template compiles to either the total wildcard `"*"` (used by `cors`) or a
list of segments with an optional trailing `"/*"` wildcard (used by `static`).
A `:name` segment matches exactly one non-empty path segment; a literal
segment matches only identical text. -/

inductive Seg where
  | lit (s : String)
  | param (name : String)
deriving DecidableEq, Repr

inductive Pattern where
  | any
  | path (segs : List Seg) (wild : Bool)
deriving DecidableEq, Repr

def compileSeg (s : String) : Seg :=
  match s.data with
  | ':' :: rest => Seg.param (String.mk rest)
  | _ => Seg.lit s

def splitPath (p : String) : List String :=
  let parts := splitStr '/' p
  if parts.head? = some "" then parts.drop 1 else parts

def compilePattern (template : String) : Pattern :=
  if template = "*" then Pattern.any
  else
    let parts := splitPath template
    if parts.getLast? = some "*" then
      Pattern.path (parts.dropLast.map compileSeg) true
    else
      Pattern.path (parts.map compileSeg) false

/-- Segment-wise match of a wildcard-free template: a literal must be equal,
a parameter consumes one non-empty segment, and the counts must agree. -/
def matchSegs : List Seg → List String → Option (List (String × String))
  | [], [] => some []
  | Seg.lit s :: rest, p :: ps =>
      if s = p then matchSegs rest ps else none
  | Seg.param n :: rest, p :: ps =>
      if p = "" then none
      else (matchSegs rest ps).map (fun g => (n, p) :: g)
  | _, _ => none

/-- `URLPattern.exec(url).pathname.groups` on the modelled pattern language. -/
def matchPattern : Pattern → String → Option (List (String × String))
  | Pattern.any, p => some [("0", p)]
  | Pattern.path segs false, p => matchSegs segs (splitPath p)
  | Pattern.path segs true, p =>
      let ps := splitPath p
      let rest := ps.drop segs.length
      if rest.isEmpty then none
      else (matchSegs segs (ps.take segs.length)).map
        (fun g => g ++ [("0", String.intercalate "/" rest)])

/-! ## Requests, handlers, the route table and dispatch. -/

structure Request where
  method : String
  path : String
  query : String
deriving DecidableEq, Repr

/-- A user handler: request, fresh builder, extracted params, extracted
queries; a thrown exception or rejected promise is an `Except.error`. -/
def Handler :=
  Request → ResponseBuilder → List (String × String) → List (String × String) →
    Except String Response

/-- `pattern.exec(url)?.pathname.groups || \x7b\x7d`: the no-match fallback
is the empty mapping (a non-null `groups` object is truthy, even when empty). -/
def paramsOf (pat : Pattern) (path : String) : List (String × String) :=
  (matchPattern pat path).getD []

/-! URLSearchParams parsing: split on `&`, drop empty pieces, split each piece
at the first `=`, URL-decode key and value (`+` as space, `%XX` as a byte). -/

def hexVal (c : Char) : Option Nat :=
  if '0' ≤ c ∧ c ≤ '9' then some (c.toNat - '0'.toNat)
  else if 'a' ≤ c ∧ c ≤ 'f' then some (c.toNat - 'a'.toNat + 10)
  else if 'A' ≤ c ∧ c ≤ 'F' then some (c.toNat - 'A'.toNat + 10)
  else none

def percentDecodeAux : List Char → List Char
  | '%' :: a :: b :: rest =>
      match hexVal a, hexVal b with
      | some x, some y => Char.ofNat (16 * x + y) :: percentDecodeAux rest
      | _, _ => '%' :: percentDecodeAux (a :: b :: rest)
  | '+' :: rest => ' ' :: percentDecodeAux rest
  | c :: rest => c :: percentDecodeAux rest
  | [] => []

def urlDecode (s : String) : String :=
  String.mk (percentDecodeAux s.data)

def parseQueryPairs (q : String) : List (String × String) :=
  (splitStr '&' q).filterMap (fun piece =>
    if piece = "" then none
    else
      match splitStr '=' piece with
      | [] => some (urlDecode piece, "")
      | k :: rest => some (urlDecode k, urlDecode (String.intercalate "=" rest)))

/-- `Object.fromEntries`: first occurrence fixes the position, later
occurrences overwrite the value (last-wins). -/
def upsert (l : List (String × String)) (k v : String) : List (String × String) :=
  match l with
  | [] => [(k, v)]
  | (k', v') :: rest =>
      if k' = k then (k, v) :: rest else (k', v') :: upsert rest k v

def fromEntries (ps : List (String × String)) : List (String × String) :=
  ps.foldl (fun acc p => upsert acc p.1 p.2) []

/-- `Object.fromEntries(url.searchParams.entries())`. -/
def queriesOf (req : Request) : List (String × String) :=
  fromEntries (parseQueryPairs req.query)

def alistLookup : List (String × String) → String → Option String
  | [], _ => none
  | (k', v) :: rest, k => if k' = k then some v else alistLookup rest k

/-- The value of the last pair carrying a given key, if any. -/
def lastValue : List (String × String) → String → Option String
  | [], _ => none
  | (k', v) :: rest, k =>
      match lastValue rest k with
      | some v' => some v'
      | none => if k' = k then some v else none

/-! ## Stored route handlers

`addRoute` stores a closure over the compiled pattern that recomputes queries
and params, invokes the user handler with a fresh builder, and converts any
failure into a bare 500 response. `static` stores the raw delegate with no
try/catch. `cors` stores the fixed 204 responder. -/

inductive StoredHandler where
  | wrapped (pattern : Pattern) (h : Handler)
  | staticH (delegate : Request → Except String Response)
  | corsH

structure RouteEntry where
  method : String
  pattern : Pattern
  handler : StoredHandler

/-- The catch branch of the `addRoute` closure:
`new Response("Internal Server Error", \x7b status: 500 \x7d)`. -/
def internalErrorResponse : Response :=
  mkResponse (Body.str "Internal Server Error") 500 []

/-- The `route` fallback: `new Response("404", \x7b status: 404 \x7d)`. -/
def notFoundResponse : Response :=
  mkResponse (Body.str "404") 404 []

/-- The `cors` handler result:
`new Response(null, \x7b status: 204, headers: new Headers(Router.HEADERS) \x7d)`. -/
def corsResponse : Response :=
  mkResponse Body.none 204 (headersOfList Router.HEADERS)

/-- The try/catch body of the `addRoute` closure. -/
def runWrapped (pat : Pattern) (h : Handler) (req : Request) : Except String Response :=
  match h req ResponseBuilder.new (paramsOf pat req.path) (queriesOf req) with
  | Except.ok r => Except.ok r
  | Except.error _ => Except.ok internalErrorResponse

def runStored : StoredHandler → Request → Except String Response
  | StoredHandler.wrapped pat h, req => runWrapped pat h req
  | StoredHandler.staticH d, req => d req
  | StoredHandler.corsH, _ => Except.ok corsResponse

def matchesEntry (e : RouteEntry) (req : Request) : Bool :=
  e.method == req.method && (matchPattern e.pattern req.path).isSome

/-- `route(routes, defaultHandler)` from `@std/http/unstable-route`: first
entry whose method and pattern both match wins; otherwise the 404 fallback. -/
def dispatch : List RouteEntry → Request → Except String Response
  | [], _ => Except.ok notFoundResponse
  | e :: rest, req =>
      if matchesEntry e req then runStored e.handler req else dispatch rest req

/-! ## The registration surface of `Router`. -/

inductive Op where
  | get (path : String) (h : Handler)
  | post (path : String) (h : Handler)
  | put (path : String) (h : Handler)
  | del (path : String) (h : Handler)
  | staticOp (path : String) (delegate : Request → Except String Response)
  | cors

def corsEntry : RouteEntry :=
  ⟨"OPTIONS", Pattern.any, StoredHandler.corsH⟩

def mkUserEntry (method path : String) (h : Handler) : RouteEntry :=
  ⟨method, compilePattern path, StoredHandler.wrapped (compilePattern path) h⟩

/-- One registration call: `get/post/put/delete` and `static` push onto the
route table, `cors` unshifts the wildcard OPTIONS entry to the front. -/
def applyOp (routes : List RouteEntry) : Op → List RouteEntry
  | Op.get p h => routes ++ [mkUserEntry "GET" p h]
  | Op.post p h => routes ++ [mkUserEntry "POST" p h]
  | Op.put p h => routes ++ [mkUserEntry "PUT" p h]
  | Op.del p h => routes ++ [mkUserEntry "DELETE" p h]
  | Op.staticOp p d =>
      routes ++ [⟨"GET", compilePattern (p ++ "/*"), StoredHandler.staticH d⟩]
  | Op.cors => corsEntry :: routes

def applyOps (ops : List Op) : List RouteEntry :=
  ops.foldl applyOp []

/-! ## Helper lemmas -/

theorem headersGet_headersSet (hs : List (String × String)) (k v : String) :
    headersGet (headersSet hs k v) k = some v := by
  induction hs with
  | nil => simp [headersSet, headersGet]
  | cons p rest ih =>
      obtain ⟨k', v'⟩ := p
      by_cases hk : k' = lowerStr k
      · simp [headersSet, headersGet, hk]
      · simpa [headersSet, headersGet, hk] using ih

theorem mkResponse_bytes (bs : List Nat) (status : Nat) (hs : List (String × String)) :
    mkResponse (Body.bytes bs) status hs = ⟨status, hs, Body.bytes bs⟩ := rfl

theorem mkResponse_none (status : Nat) (hs : List (String × String)) :
    mkResponse Body.none status hs = ⟨status, hs, Body.none⟩ := rfl

/-! ## Claim theorems -/

/-- C6: for every body argument, if the builder's status code is 204 or 304
when `send` is called, the produced response has no body regardless of the
argument, while keeping the accumulated headers and the status code. -/
theorem send_empty_status_drops_body (b : ResponseBuilder) (data : JSData)
    (h : b.code = 204 ∨ b.code = 304) :
    b.send data = ⟨b.code, b.headers, Body.none⟩ := by
  have hmem : b.code ∈ empties := by
    rcases h with h | h <;> simp [empties, h]
  simp [ResponseBuilder.send, hmem, mkResponse_none]

theorem send_empty_status_drops_body_witness :
    (ResponseBuilder.new.status 204).send (JSData.str "ignored") =
      ⟨204, ResponseBuilder.new.headers, Body.none⟩ :=
  send_empty_status_drops_body (ResponseBuilder.new.status 204) (JSData.str "ignored")
    (Or.inl rfl)

/-- C5: for every byte payload passed to `send` (with a status that carries a
body), the response body is exactly the input bytes with no transcoding, and
a caller-set content type is kept verbatim. -/
theorem send_binary_preserves_bytes (b : ResponseBuilder) (bs : List Nat) (ct : String)
    (h : b.code ∉ empties) :
    b.send (JSData.binary bs) = ⟨b.code, b.headers, Body.bytes bs⟩ ∧
    (b.setHeader "Content-Type" ct).send (JSData.binary bs) =
      ⟨b.code, headersSet b.headers "Content-Type" ct, Body.bytes bs⟩ ∧
    headersGet ((b.setHeader "Content-Type" ct).send (JSData.binary bs)).headers
      "Content-Type" = some ct := by
  refine ⟨?_, ?_, ?_⟩
  · simp [ResponseBuilder.send, h, isBinary, mkResponse_bytes]
  · simp [ResponseBuilder.send, ResponseBuilder.setHeader, h, isBinary, mkResponse_bytes]
  · simp [ResponseBuilder.send, ResponseBuilder.setHeader, h, isBinary, mkResponse_bytes,
      headersGet_headersSet]

theorem send_binary_preserves_bytes_witness :
    ResponseBuilder.new.send (JSData.binary [72, 101, 108, 108, 111]) =
      ⟨200, ResponseBuilder.new.headers, Body.bytes [72, 101, 108, 108, 111]⟩ ∧
    headersGet ((ResponseBuilder.new.setHeader "Content-Type"
        "application/octet-stream").send (JSData.binary [72, 101, 108, 108, 111])).headers
      "Content-Type" = some "application/octet-stream" :=
  ⟨(send_binary_preserves_bytes ResponseBuilder.new [72, 101, 108, 108, 111]
      "application/octet-stream" (by decide)).1,
   (send_binary_preserves_bytes ResponseBuilder.new [72, 101, 108, 108, 111]
      "application/octet-stream" (by decide)).2.2⟩

/-- C10: the 404 fallback response and the 500 handler-failure response are
built without the router's default header set: neither carries the
application/json content type nor any of the three permissive CORS headers,
unlike responses built through the `ResponseBuilder`. -/
theorem fallback_responses_lack_default_headers :
    headersGet notFoundResponse.headers "Access-Control-Allow-Origin" = none ∧
    headersGet notFoundResponse.headers "Access-Control-Allow-Methods" = none ∧
    headersGet notFoundResponse.headers "Access-Control-Allow-Headers" = none ∧
    headersGet notFoundResponse.headers "Content-Type" ≠ some "application/json" ∧
    headersGet internalErrorResponse.headers "Access-Control-Allow-Origin" = none ∧
    headersGet internalErrorResponse.headers "Access-Control-Allow-Methods" = none ∧
    headersGet internalErrorResponse.headers "Access-Control-Allow-Headers" = none ∧
    headersGet internalErrorResponse.headers "Content-Type" ≠ some "application/json" ∧
    headersGet (ResponseBuilder.new.send (JSData.str "x")).headers "Content-Type" =
      some "application/json" ∧
    headersGet (ResponseBuilder.new.send (JSData.str "x")).headers
      "Access-Control-Allow-Origin" = some "*" ∧
    headersGet (ResponseBuilder.new.send (JSData.str "x")).headers
      "Access-Control-Allow-Methods" = some "GET, POST, PUT, DELETE, OPTIONS" ∧
    headersGet (ResponseBuilder.new.send (JSData.str "x")).headers
      "Access-Control-Allow-Headers" = some "Content-Type, Authorization" := by
  decide

theorem dispatch_single_get (p : String) (h : Handler) (req : Request)
    (hm : req.method = "GET")
    (hp : (matchPattern (compilePattern p) req.path).isSome = true) :
    dispatch (applyOps [Op.get p h]) req = runWrapped (compilePattern p) h req := by
  simp [applyOps, applyOp, mkUserEntry, dispatch, matchesEntry, hm, hp, runStored]

/-- C2: for every registered non-static route matching a request, a handler
that throws or rejects is caught: dispatch returns status 500 with the fixed
body "Internal Server Error", independent of the handler and of any builder
state, and the failure does not propagate out of dispatch. -/
theorem handler_failure_gives_500 (p : String) (h : Handler) (req : Request) (e : String)
    (hm : req.method = "GET")
    (hp : (matchPattern (compilePattern p) req.path).isSome = true)
    (he : h req ResponseBuilder.new (paramsOf (compilePattern p) req.path) (queriesOf req) =
      Except.error e) :
    dispatch (applyOps [Op.get p h]) req = Except.ok internalErrorResponse ∧
    (∀ (pat : Pattern) (hh : Handler) (req' : Request) (err : String),
      hh req' ResponseBuilder.new (paramsOf pat req'.path) (queriesOf req') =
        Except.error err →
      runWrapped pat hh req' = Except.ok internalErrorResponse) ∧
    internalErrorResponse.status = 500 ∧
    internalErrorResponse.body = Body.str "Internal Server Error" := by
  refine ⟨?_, fun pat hh req' err he' => by simp [runWrapped, he'], rfl, rfl⟩
  rw [dispatch_single_get p h req hm hp]
  simp [runWrapped, he]

theorem handler_failure_gives_500_witness :
    dispatch (applyOps [Op.get "/test" (fun _ _ _ _ => Except.error "boom")])
      ⟨"GET", "/test", ""⟩ = Except.ok internalErrorResponse :=
  (handler_failure_gives_500 "/test" (fun _ _ _ _ => Except.error "boom")
    ⟨"GET", "/test", ""⟩ "boom" rfl (by decide) rfl).1

/-- C8: a request matching no registered entry gets the fixed 404 response
with literal body "404"; the result is independent of every handler, so no
handler runs and no parameter or query extraction is performed. -/
theorem no_match_yields_404 (routes : List RouteEntry) (req : Request)
    (h : ∀ e ∈ routes, matchesEntry e req = false) :
    dispatch routes req = Except.ok notFoundResponse ∧
    notFoundResponse.status = 404 ∧
    notFoundResponse.body = Body.str "404" := by
  refine ⟨?_, rfl, rfl⟩
  induction routes with
  | nil => rfl
  | cons e rest ih =>
      have he : matchesEntry e req = false := h e (List.mem_cons_self e rest)
      simp only [dispatch, he, Bool.false_eq_true, if_false]
      exact ih (fun e' he' => h e' (List.mem_cons_of_mem _ he'))

theorem no_match_yields_404_witness :
    dispatch (applyOps [Op.get "/test" (fun _ _ _ _ => Except.error "unused")])
      ⟨"GET", "/unknown", ""⟩ = Except.ok notFoundResponse ∧
    notFoundResponse.status = 404 ∧
    notFoundResponse.body = Body.str "404" :=
  no_match_yields_404 _ _ (by
    intro e he
    simp only [applyOps, applyOp, List.foldl_cons, List.foldl_nil, List.nil_append,
      List.mem_singleton] at he
    subst he
    rfl)

theorem matchSegs_length :
    ∀ (segs : List Seg) (ps : List String) (g : List (String × String)),
      matchSegs segs ps = some g → ps.length = segs.length := by
  intro segs
  induction segs with
  | nil =>
      intro ps g h
      cases ps with
      | nil => rfl
      | cons p ps => simp [matchSegs] at h
  | cons s rest ih =>
      intro ps g h
      cases ps with
      | nil => cases s <;> simp [matchSegs] at h
      | cons p ps =>
          cases s with
          | lit t =>
              by_cases ht : t = p
              · simp only [matchSegs, ht, if_true] at h
                simp [ih ps g h]
              · simp [matchSegs, ht] at h
          | param n =>
              by_cases hp : p = ""
              · simp [matchSegs, hp] at h
              · simp only [matchSegs, hp, if_false, Option.map_eq_some'] at h
                obtain ⟨g', hg', _⟩ := h
                simp [ih ps g' hg']

theorem matchPattern_wild_length (segs : List Seg) (path : String)
    (g : List (String × String))
    (h : matchPattern (Pattern.path segs true) path = some g) :
    segs.length < (splitPath path).length := by
  simp only [matchPattern] at h
  by_cases hre : ((splitPath path).drop segs.length).isEmpty
  · simp [hre] at h
  · have hne : (splitPath path).drop segs.length ≠ [] := by
      simpa [List.isEmpty_iff] using hre
    have : ¬ (splitPath path).length ≤ segs.length := by
      intro hle
      exact hne (List.drop_eq_nil_of_le hle)
    omega

/-- C3: the pattern "/users/:id" dispatched on "/users/123" invokes the
handler with parameters [("id", "123")]; "/users" and "/users/123/extra"
match nothing and give 404; in general a parameter segment consumes exactly
one non-empty segment and segment counts must agree unless a trailing
wildcard is present. -/
theorem users_id_route_matching :
    (∀ h : Handler,
      dispatch (applyOps [Op.get "/users/:id" h]) ⟨"GET", "/users/123", ""⟩ =
        match h ⟨"GET", "/users/123", ""⟩ ResponseBuilder.new [("id", "123")] [] with
        | Except.ok r => Except.ok r
        | Except.error _ => Except.ok internalErrorResponse) ∧
    (∀ h : Handler,
      dispatch (applyOps [Op.get "/users/:id" h]) ⟨"GET", "/users", ""⟩ =
        Except.ok notFoundResponse) ∧
    (∀ h : Handler,
      dispatch (applyOps [Op.get "/users/:id" h]) ⟨"GET", "/users/123/extra", ""⟩ =
        Except.ok notFoundResponse) ∧
    notFoundResponse.status = 404 ∧
    (∀ segs ps g, matchSegs segs ps = some g → ps.length = segs.length) ∧
    (∀ (n : String) (rest : List Seg) (ps : List String),
      matchSegs (Seg.param n :: rest) ("" :: ps) = none) ∧
    (∀ segs path g, matchPattern (Pattern.path segs true) path = some g →
      segs.length < (splitPath path).length) :=
  ⟨fun _ => rfl, fun _ => rfl, fun _ => rfl, rfl, matchSegs_length,
   fun _ _ _ => by simp [matchSegs], matchPattern_wild_length⟩

theorem users_id_route_matching_witness :
    (["users", "123"] : List String).length =
      ([Seg.lit "users", Seg.param "id"] : List Seg).length :=
  users_id_route_matching.2.2.2.2.1 [Seg.lit "users", Seg.param "id"]
    ["users", "123"] [("id", "123")] (by decide)

theorem matchSegs_no_param :
    ∀ (segs : List Seg) (ps : List String) (g : List (String × String)),
      (∀ n, Seg.param n ∉ segs) → matchSegs segs ps = some g → g = [] := by
  intro segs
  induction segs with
  | nil =>
      intro ps g _ h
      cases ps with
      | nil => simpa [matchSegs] using h.symm
      | cons p ps => simp [matchSegs] at h
  | cons s rest ih =>
      intro ps g hnp h
      cases ps with
      | nil => cases s <;> simp [matchSegs] at h
      | cons p ps =>
          cases s with
          | lit t =>
              by_cases ht : t = p
              · simp only [matchSegs, ht, if_true] at h
                exact ih ps g (fun n hn => hnp n (List.mem_cons_of_mem _ hn)) h
              · simp [matchSegs, ht] at h
          | param n => exact absurd (List.mem_cons_self _ _) (hnp n)

/-- C9: the parameters mapping handed to a matched non-static handler is
always a defined mapping: the empty mapping both when the pattern exec fails
and when the pattern has no parameter segments, never an absent value. -/
theorem params_always_defined :
    (∀ pat path, matchPattern pat path = none → paramsOf pat path = []) ∧
    (∀ segs ps g, (∀ n, Seg.param n ∉ segs) → matchSegs segs ps = some g → g = []) ∧
    (∀ h : Handler,
      dispatch (applyOps [Op.get "/test" h]) ⟨"GET", "/test", ""⟩ =
        match h ⟨"GET", "/test", ""⟩ ResponseBuilder.new [] [] with
        | Except.ok r => Except.ok r
        | Except.error _ => Except.ok internalErrorResponse) :=
  ⟨fun _ _ h => by simp [paramsOf, h], matchSegs_no_param, fun _ => rfl⟩

theorem params_always_defined_witness :
    paramsOf (compilePattern "/users/:id") "/users" = [] :=
  params_always_defined.1 (compilePattern "/users/:id") "/users" (by decide)

theorem alistLookup_upsert (l : List (String × String)) (a b k : String) :
    alistLookup (upsert l a b) k = if a = k then some b else alistLookup l k := by
  induction l with
  | nil => by_cases h : a = k <;> simp [upsert, alistLookup, h]
  | cons p rest ih =>
      obtain ⟨k', v'⟩ := p
      by_cases hk : k' = a
      · subst hk
        by_cases h : k' = k <;> simp [upsert, alistLookup, h]
      · by_cases h : k' = k
        · subst h
          have ha : ¬ a = k' := fun hc => hk hc.symm
          simp [upsert, hk, alistLookup, ha]
        · simp [upsert, hk, alistLookup, h, ih]

theorem foldl_upsert_lookup (ps : List (String × String)) :
    ∀ (acc : List (String × String)) (k : String),
      alistLookup (ps.foldl (fun a p => upsert a p.1 p.2) acc) k =
        match lastValue ps k with
        | some v => some v
        | none => alistLookup acc k := by
  induction ps with
  | nil => intro acc k; rfl
  | cons p ps ih =>
      intro acc k
      obtain ⟨k', v'⟩ := p
      simp only [List.foldl_cons]
      rw [ih]
      cases hl : lastValue ps k with
      | some v => simp [lastValue, hl]
      | none =>
          simp only [lastValue, hl]
          rw [alistLookup_upsert]
          by_cases h : k' = k <;> simp [h]

theorem fromEntries_lookup (ps : List (String × String)) (k : String) :
    alistLookup (fromEntries ps) k = lastValue ps k := by
  rw [fromEntries, foldl_upsert_lookup]
  cases lastValue ps k <;> rfl

theorem mem_keys_upsert (l : List (String × String)) (a b k : String) :
    k ∈ (upsert l a b).map Prod.fst ↔ k = a ∨ k ∈ l.map Prod.fst := by
  induction l with
  | nil => simp [upsert]
  | cons p rest ih =>
      obtain ⟨k', v'⟩ := p
      by_cases h : k' = a
      · subst h
        simp [upsert]
      · simp [upsert, h, ih]
        tauto

theorem nodup_keys_upsert (l : List (String × String)) (a b : String)
    (h : (l.map Prod.fst).Nodup) : ((upsert l a b).map Prod.fst).Nodup := by
  induction l with
  | nil => simp [upsert]
  | cons p rest ih =>
      obtain ⟨k', v'⟩ := p
      simp only [List.map_cons, List.nodup_cons] at h
      by_cases hk : k' = a
      · subst hk
        simpa [upsert, List.nodup_cons] using h
      · simp only [upsert, if_neg hk, List.map_cons, List.nodup_cons]
        refine ⟨?_, ih h.2⟩
        rw [mem_keys_upsert]
        rintro (rfl | hm)
        · exact hk rfl
        · exact h.1 hm

theorem nodup_keys_foldl (ps : List (String × String)) :
    ∀ acc : List (String × String), (acc.map Prod.fst).Nodup →
      ((ps.foldl (fun a p => upsert a p.1 p.2) acc).map Prod.fst).Nodup := by
  induction ps with
  | nil => intro acc h; exact h
  | cons p ps ih =>
      intro acc h
      exact ih _ (nodup_keys_upsert _ _ _ h)

/-- C7: when a request's query string repeats a key, the queries mapping
passed to the handler holds exactly one value for that key — the value of
its last occurrence — with keys and values URL-decoded; the rule holds for
every request. -/
theorem query_duplicate_last_wins :
    (∀ req k, alistLookup (queriesOf req) k = lastValue (parseQueryPairs req.query) k) ∧
    (∀ req, ((queriesOf req).map Prod.fst).Nodup) ∧
    queriesOf ⟨"GET", "/search", "a=1&a=2"⟩ = [("a", "2")] ∧
    queriesOf ⟨"GET", "/search", "a%20b=x&a+b=y"⟩ = [("a b", "y")] ∧
    (∀ h : Handler,
      dispatch (applyOps [Op.get "/search" h]) ⟨"GET", "/search", "a=1&a=2"⟩ =
        match h ⟨"GET", "/search", "a=1&a=2"⟩ ResponseBuilder.new [] [("a", "2")] with
        | Except.ok r => Except.ok r
        | Except.error _ => Except.ok internalErrorResponse) :=
  ⟨fun req k => fromEntries_lookup (parseQueryPairs req.query) k,
   fun req => nodup_keys_foldl (parseQueryPairs req.query) [] (by simp),
   rfl, rfl, fun _ => rfl⟩

theorem applyOp_options_entries (routes : List RouteEntry) (op : Op)
    (h : ∀ e ∈ routes, e.method = "OPTIONS" → e = corsEntry) :
    ∀ e ∈ applyOp routes op, e.method = "OPTIONS" → e = corsEntry := by
  intro e he hm
  cases op with
  | cors =>
      rcases List.mem_cons.mp he with rfl | h1
      · rfl
      · exact h e h1 hm
  | get p hh =>
      rcases List.mem_append.mp he with h1 | h2
      · exact h e h1 hm
      · rcases List.mem_singleton.mp h2 with rfl
        exact absurd hm (by simp [mkUserEntry])
  | post p hh =>
      rcases List.mem_append.mp he with h1 | h2
      · exact h e h1 hm
      · rcases List.mem_singleton.mp h2 with rfl
        exact absurd hm (by simp [mkUserEntry])
  | put p hh =>
      rcases List.mem_append.mp he with h1 | h2
      · exact h e h1 hm
      · rcases List.mem_singleton.mp h2 with rfl
        exact absurd hm (by simp [mkUserEntry])
  | del p hh =>
      rcases List.mem_append.mp he with h1 | h2
      · exact h e h1 hm
      · rcases List.mem_singleton.mp h2 with rfl
        exact absurd hm (by simp [mkUserEntry])
  | staticOp p d =>
      rcases List.mem_append.mp he with h1 | h2
      · exact h e h1 hm
      · rcases List.mem_singleton.mp h2 with rfl
        exact absurd hm (by simp)

theorem foldl_options_entries (ops : List Op) :
    ∀ acc, (∀ e ∈ acc, e.method = "OPTIONS" → e = corsEntry) →
      ∀ e ∈ ops.foldl applyOp acc, e.method = "OPTIONS" → e = corsEntry := by
  induction ops with
  | nil => intro acc h; exact h
  | cons op ops ih =>
      intro acc h
      exact ih _ (applyOp_options_entries acc op h)

theorem corsEntry_mem_applyOp (routes : List RouteEntry) (op : Op)
    (h : corsEntry ∈ routes) : corsEntry ∈ applyOp routes op := by
  cases op <;>
    first
    | exact List.mem_append_left _ h
    | exact List.mem_cons_of_mem _ h

theorem corsEntry_mem_foldl (ops : List Op) :
    ∀ acc, corsEntry ∈ acc → corsEntry ∈ ops.foldl applyOp acc := by
  induction ops with
  | nil => intro acc h; exact h
  | cons op ops ih =>
      intro acc h
      exact ih _ (corsEntry_mem_applyOp acc op h)

theorem corsEntry_mem_applyOps (ops : List Op) (h : Op.cors ∈ ops) :
    ∀ acc, corsEntry ∈ ops.foldl applyOp acc := by
  induction ops with
  | nil => cases h
  | cons op ops ih =>
      intro acc
      rw [List.foldl_cons]
      rcases List.mem_cons.mp h with hop | h1
      · subst hop
        exact corsEntry_mem_foldl ops _ (List.mem_cons_self _ _)
      · exact ih h1 _

theorem head_applyOp (routes : List RouteEntry) (op : Op)
    (h : routes.head? = some corsEntry) :
    (applyOp routes op).head? = some corsEntry := by
  cases routes with
  | nil => simp at h
  | cons a rest =>
      have ha : a = corsEntry := by simpa using h
      subst ha
      cases op <;> simp [applyOp]

theorem head_foldl (ops : List Op) :
    ∀ acc, acc.head? = some corsEntry →
      (ops.foldl applyOp acc).head? = some corsEntry := by
  induction ops with
  | nil => intro acc h; exact h
  | cons op ops ih =>
      intro acc h
      exact ih _ (head_applyOp acc op h)

theorem applyOps_head_cors (ops : List Op) (h : Op.cors ∈ ops) :
    ∀ acc, (ops.foldl applyOp acc).head? = some corsEntry := by
  induction ops with
  | nil => cases h
  | cons op ops ih =>
      intro acc
      rw [List.foldl_cons]
      rcases List.mem_cons.mp h with hop | h1
      · subst hop
        exact head_foldl ops _ rfl
      · exact ih h1 _

theorem dispatch_options_cors :
    ∀ routes : List RouteEntry,
      (∀ e ∈ routes, e.method = "OPTIONS" → e = corsEntry) →
      corsEntry ∈ routes →
      ∀ path q, dispatch routes ⟨"OPTIONS", path, q⟩ = Except.ok corsResponse := by
  intro routes
  induction routes with
  | nil => intro _ hmem; cases hmem
  | cons e rest ih =>
      intro hinv hmem path q
      by_cases hm : matchesEntry e ⟨"OPTIONS", path, q⟩ = true
      · have hmeth : e.method = "OPTIONS" := by
          have h2 := hm
          simp only [matchesEntry, Bool.and_eq_true, beq_iff_eq] at h2
          exact h2.1
        have he : e = corsEntry := hinv e (List.mem_cons_self _ _) hmeth
        subst he
        rfl
      · have hne : e ≠ corsEntry := by
          intro hc
          subst hc
          exact hm rfl
        have hmem' : corsEntry ∈ rest := by
          rcases List.mem_cons.mp hmem with h1 | h1
          · exact absurd h1.symm hne
          · exact h1
        have hmf : matchesEntry e ⟨"OPTIONS", path, q⟩ = false := by
          revert hm
          cases matchesEntry e ⟨"OPTIONS", path, q⟩ <;> simp
        simp only [dispatch, hmf, Bool.false_eq_true, if_false]
        exact ih (fun e' he' hm' => hinv e' (List.mem_cons_of_mem _ he') hm') hmem' path q

/-- C4: once cors() has been called, the wildcard OPTIONS entry sits at the
front of the route table, and dispatching an OPTIONS request for any path
returns status 204 with the default CORS header set and an empty body, ahead
of every other route regardless of registration order. -/
theorem cors_options_priority (ops : List Op) (path q : String)
    (h : Op.cors ∈ ops) :
    dispatch (applyOps ops) ⟨"OPTIONS", path, q⟩ = Except.ok corsResponse ∧
    (applyOps ops).head? = some corsEntry ∧
    corsResponse.status = 204 ∧
    corsResponse.body = Body.none ∧
    headersGet corsResponse.headers "Access-Control-Allow-Origin" = some "*" ∧
    headersGet corsResponse.headers "Access-Control-Allow-Methods" =
      some "GET, POST, PUT, DELETE, OPTIONS" ∧
    headersGet corsResponse.headers "Access-Control-Allow-Headers" =
      some "Content-Type, Authorization" := by
  refine ⟨?_, ?_, rfl, rfl, by decide, by decide, by decide⟩
  · exact dispatch_options_cors (applyOps ops)
      (foldl_options_entries ops [] (by simp))
      (corsEntry_mem_applyOps ops h [])
      path q
  · exact applyOps_head_cors ops h []

theorem cors_options_priority_witness :
    dispatch (applyOps [Op.get "/test" (fun _ _ _ _ => Except.error "x"), Op.cors])
      ⟨"OPTIONS", "/anything", ""⟩ = Except.ok corsResponse :=
  (cors_options_priority [Op.get "/test" (fun _ _ _ _ => Except.error "x"), Op.cors]
    "/anything" "" (List.mem_cons_of_mem _ (List.mem_cons_self _ _))).1

/-- C1 counterexample: a static-file route calls its delegate with no
try/catch, so a failing delegate propagates its failure out of dispatch
instead of producing a response object. -/
theorem static_delegate_failure_escapes_dispatch :
    dispatch (applyOps [Op.staticOp "/public" (fun _ => Except.error "delegate failure")])
      ⟨"GET", "/public/a.txt", ""⟩ = Except.error "delegate failure" := rfl

/-- C1 (amended): dispatch returns a well-formed response object for every
request — a 404 on no match, the handler's response or a 500 on a matched
non-static route — except that a matched static-file route whose delegate
fails propagates that failure to the caller. -/
theorem dispatch_total_unless_static_fails (routes : List RouteEntry) (req : Request)
    (h : ∀ e ∈ routes, ∀ d, e.handler = StoredHandler.staticH d →
      ∃ r, d req = Except.ok r) :
    ∃ r, dispatch routes req = Except.ok r := by
  induction routes with
  | nil => exact ⟨notFoundResponse, rfl⟩
  | cons e rest ih =>
      by_cases hm : matchesEntry e req = true
      · simp only [dispatch, hm, if_true]
        cases he : e.handler with
        | wrapped pat hh =>
            cases hr : hh req ResponseBuilder.new (paramsOf pat req.path) (queriesOf req) with
            | ok r => exact ⟨r, by simp [runStored, runWrapped, hr]⟩
            | error err => exact ⟨internalErrorResponse, by simp [runStored, runWrapped, hr]⟩
        | staticH d =>
            obtain ⟨r, hr⟩ := h e (List.mem_cons_self _ _) d he
            exact ⟨r, by simp [runStored, hr]⟩
        | corsH => exact ⟨corsResponse, by simp [runStored]⟩
      · have hmf : matchesEntry e req = false := by
          revert hm
          cases matchesEntry e req <;> simp
        simp only [dispatch, hmf, Bool.false_eq_true, if_false]
        exact ih (fun e' he' d hd => h e' (List.mem_cons_of_mem _ he') d hd)

theorem dispatch_total_unless_static_fails_witness :
    ∃ r, dispatch (applyOps [Op.get "/test" (fun _ _ _ _ => Except.error "boom")])
      ⟨"GET", "/test", ""⟩ = Except.ok r :=
  dispatch_total_unless_static_fails _ _ (by
    intro e he d hd
    simp only [applyOps, applyOp, List.foldl_cons, List.foldl_nil, List.nil_append,
      List.mem_singleton] at he
    subst he
    simp [mkUserEntry] at hd)
